import Mathlib

/-!
Shallow embedding of the ns-3 IPv6 transport-endpoint demultiplexer
(`src/internet/model/ipv6-end-point-demux.cc`) and proofs about its
allocation and arrival-lookup algorithms.

Modelling choices:
* `Ipv6Address` is an opaque address space with the two sentinel constants
  the code compares against (`GetAny`, `GetAllRoutersMulticast`) plus
  arbitrary concrete addresses.
* `Ptr<NetDevice>` values are modelled as `Option Nat`: `none` is the null
  pointer, `some n` a concrete device; pointer equality is value equality.
* The incoming `Ptr<Ipv6Interface>` is modelled as `Option Nat` carrying
  the device of the interface (`none` is a null interface pointer).
* `uint16_t` arithmetic in the ephemeral-port scan is `Nat` with an
  explicit `% 65536` where the C++ increment may wrap.
* `NS_ABORT_MSG_IF` in `Lookup` is modelled by returning `none`
  (the abort) versus `some results` (a normal return).
-/

set_option autoImplicit false

namespace Demux

/-- Address space: the wildcard `Ipv6Address::GetAny`, the well-known
`Ipv6Address::GetAllRoutersMulticast` sentinel, and concrete addresses. -/
inductive Ipv6Address where
  | any
  | allRouters
  | addr (n : Nat)
deriving DecidableEq

/-- One endpoint: the fields of the `Ipv6EndPoint` data holder that the
demultiplexer reads (local/peer address and port, optional bound device,
receive-enabled flag). -/
structure Ipv6EndPoint where
  localAddress : Ipv6Address
  localPort : Nat
  peerAddress : Ipv6Address
  peerPort : Nat
  boundNetDevice : Option Nat
  rxEnabled : Bool
deriving DecidableEq

/-- Modelled from the spec: the `Ipv6EndPoint` constructor is not under
`src/`; per the spec the endpoint is a plain data holder and a freshly
allocated endpoint has wildcard peer ("not yet connected"), no bound
device, and is receive-enabled. -/
def mkEndPoint (a : Ipv6Address) (p : Nat) : Ipv6EndPoint :=
  { localAddress := a
    localPort := p
    peerAddress := Ipv6Address.any
    peerPort := 0
    boundNetDevice := none
    rxEnabled := true }

/-- Demultiplexer state: the endpoint collection plus the ephemeral-port
allocation state (`m_ephemeral`, `m_portFirst`, `m_portLast`). -/
structure Ipv6EndPointDemux where
  m_endPoints : List Ipv6EndPoint
  m_ephemeral : Nat
  m_portFirst : Nat
  m_portLast : Nat
deriving DecidableEq

/-- A demultiplexer with no endpoints whose ephemeral scan state starts at
`first` and whose port range is `[first, last]`. -/
def freshDemux (first last : Nat) : Ipv6EndPointDemux :=
  { m_endPoints := []
    m_ephemeral := first
    m_portFirst := first
    m_portLast := last }

/-- The constructor `Ipv6EndPointDemux()`: ephemeral state 49152,
port range `[49152, 65535]`. -/
def Ipv6EndPointDemux.init : Ipv6EndPointDemux := freshDemux 49152 65535

/-- Body of `LookupPortLocal` over an endpoint list: is some endpoint's
local port equal to `port`? -/
def lookupPortLocalList (eps : List Ipv6EndPoint) (port : Nat) : Bool :=
  eps.any fun e => decide (e.localPort = port)

/-- `Ipv6EndPointDemux::LookupPortLocal`. -/
def LookupPortLocal (d : Ipv6EndPointDemux) (port : Nat) : Bool :=
  lookupPortLocalList d.m_endPoints port

/-- `Ipv6EndPointDemux::LookupLocal`: is some endpoint's
(local port, local address, bound device) triple equal to the arguments? -/
def LookupLocal (d : Ipv6EndPointDemux) (dev : Option Nat) (a : Ipv6Address)
    (port : Nat) : Bool :=
  d.m_endPoints.any fun e =>
    decide (e.localPort = port) && decide (e.localAddress = a) &&
      decide (e.boundNetDevice = dev)

/-- The do-while scan inside `AllocateEphemeralPort`: from the current
`port`, with `fuel` remaining loop iterations allowed by the `count`
check, advance (`++port` with uint16 wraparound, then reset to `first`
when outside `[first, last]`) until a port not used by any endpoint is
found (`some`) or the iteration budget runs out (`none`). -/
def scanPort (eps : List Ipv6EndPoint) (first last : Nat) :
    Nat → Nat → Option Nat
  | 0, _ => none
  | fuel + 1, port =>
    let p0 := (port + 1) % 65536
    let p := if p0 < first || last < p0 then first else p0
    if lookupPortLocalList eps p then scanPort eps first last fuel p
    else some p

/-- `Ipv6EndPointDemux::AllocateEphemeralPort`. The C++ allows
`count = m_portLast - m_portFirst` post-decremented tests, i.e. exactly
`m_portLast + 1 - m_portFirst` loop iterations; on failure it returns 0
without touching `m_ephemeral`, on success it stores the found port. -/
def AllocateEphemeralPort (d : Ipv6EndPointDemux) : Nat × Ipv6EndPointDemux :=
  match scanPort d.m_endPoints d.m_portFirst d.m_portLast
      (d.m_portLast + 1 - d.m_portFirst) d.m_ephemeral with
  | none => (0, d)
  | some p => (p, { d with m_ephemeral := p })

/-- `Ipv6EndPointDemux::Allocate()` (AllocateAny): take an ephemeral port;
0 means exhaustion and yields no endpoint; otherwise insert an endpoint
with wildcard local address at the back of the collection. -/
def AllocateAny (d : Ipv6EndPointDemux) :
    Option Ipv6EndPoint × Ipv6EndPointDemux :=
  let r := AllocateEphemeralPort d
  if r.1 = 0 then (none, r.2)
  else
    let e := mkEndPoint Ipv6Address.any r.1
    (some e, { r.2 with m_endPoints := r.2.m_endPoints ++ [e] })

/-- `Ipv6EndPointDemux::Allocate(Ipv6Address)`: like `AllocateAny` but
with a caller-supplied local address. -/
def AllocateAddr (d : Ipv6EndPointDemux) (a : Ipv6Address) :
    Option Ipv6EndPoint × Ipv6EndPointDemux :=
  let r := AllocateEphemeralPort d
  if r.1 = 0 then (none, r.2)
  else
    let e := mkEndPoint a r.1
    (some e, { r.2 with m_endPoints := r.2.m_endPoints ++ [e] })

/-- `Ipv6EndPointDemux::Allocate(device, address, port)`: reject when
`LookupLocal(device, address, port)` or `LookupLocal(nullptr, address,
port)` finds a conflicting endpoint, otherwise insert. -/
def AllocateDevAddrPort (d : Ipv6EndPointDemux) (dev : Option Nat)
    (a : Ipv6Address) (port : Nat) :
    Option Ipv6EndPoint × Ipv6EndPointDemux :=
  if LookupLocal d dev a port || LookupLocal d none a port then (none, d)
  else
    let e := mkEndPoint a port
    (some e, { d with m_endPoints := d.m_endPoints ++ [e] })

/-- `Ipv6EndPointDemux::Allocate(device, port)`: delegates to the
device/address/port form with the wildcard address. -/
def AllocateDevPort (d : Ipv6EndPointDemux) (dev : Option Nat)
    (port : Nat) : Option Ipv6EndPoint × Ipv6EndPointDemux :=
  AllocateDevAddrPort d dev Ipv6Address.any port

/-- `Ipv6EndPointDemux::Allocate(device, localAddress, localPort,
peerAddress, peerPort)` (AllocateFull): reject when some endpoint matches
the whole 4-tuple and its bound device equals the caller's or is null;
otherwise insert an endpoint with the peer set (the new endpoint's bound
device is left null by the code). -/
def AllocateFull (d : Ipv6EndPointDemux) (dev : Option Nat)
    (la : Ipv6Address) (lp : Nat) (pa : Ipv6Address) (pp : Nat) :
    Option Ipv6EndPoint × Ipv6EndPointDemux :=
  if d.m_endPoints.any (fun e =>
      decide (e.localPort = lp) && decide (e.localAddress = la) &&
        decide (e.peerPort = pp) && decide (e.peerAddress = pa) &&
        (decide (e.boundNetDevice = dev) || decide (e.boundNetDevice = none)))
  then (none, d)
  else
    let e : Ipv6EndPoint :=
      { localAddress := la
        localPort := lp
        peerAddress := pa
        peerPort := pp
        boundNetDevice := none
        rxEnabled := true }
    (some e, { d with m_endPoints := d.m_endPoints ++ [e] })

/-- Removal of the first occurrence of `e` from a list; models the
pointer-identity erase in `DeAllocate` (each C++ endpoint object is one
list entry). -/
def removeFirst : List Ipv6EndPoint → Ipv6EndPoint → List Ipv6EndPoint
  | [], _ => []
  | x :: xs, e => if x = e then xs else x :: removeFirst xs e

/-- `Ipv6EndPointDemux::DeAllocate`: erase the first matching endpoint,
no-op if absent. -/
def DeAllocate (d : Ipv6EndPointDemux) (e : Ipv6EndPoint) :
    Ipv6EndPointDemux :=
  { d with m_endPoints := removeFirst d.m_endPoints e }

/-- The bound-device discrimination of `Lookup`'s loop: an endpoint with
no bound device passes; one with a bound device passes only when an
incoming interface is present and its device equals the bound device. -/
def deviceTest (iif : Option Nat) : Option Nat → Bool
  | none => true
  | some dev =>
    match iif with
    | none => false
    | some idev => decide (dev = idev)

/-- The per-endpoint skip tests at the head of `Lookup`'s loop plus the
two "no match at all, keep looking" tests: receive-enabled, local port
equal to `dport`, bound-device discrimination against the incoming
interface, local address exact-or-wildcard, peer port exact-or-wildcard,
peer address exact-or-wildcard. -/
def lookupMatches (daddr : Ipv6Address) (dport : Nat) (saddr : Ipv6Address)
    (sport : Nat) (iif : Option Nat) (e : Ipv6EndPoint) : Bool :=
  e.rxEnabled && decide (e.localPort = dport) &&
    deviceTest iif e.boundNetDevice &&
    (decide (e.localAddress = daddr) || decide (e.localAddress = Ipv6Address.any)) &&
    (decide (e.peerPort = sport) || decide (e.peerPort = 0)) &&
    (decide (e.peerAddress = saddr) || decide (e.peerAddress = Ipv6Address.any))

/-- Surviving endpoints of `Lookup`'s loop, in collection order. -/
def lookupSurvivors (d : Ipv6EndPointDemux) (daddr : Ipv6Address)
    (dport : Nat) (saddr : Ipv6Address) (sport : Nat) (iif : Option Nat) :
    List Ipv6EndPoint :=
  d.m_endPoints.filter (lookupMatches daddr dport saddr sport iif)

/-- The `retval1` test: local wildcard, peer-port wildcard, peer-address
wildcard. -/
def bucket1Test (e : Ipv6EndPoint) : Bool :=
  decide (e.localAddress = Ipv6Address.any) && decide (e.peerPort = 0) &&
    decide (e.peerAddress = Ipv6Address.any)

/-- The `retval2` test: local exact or all-routers multicast, peer-port
wildcard, peer-address wildcard. -/
def bucket2Test (daddr : Ipv6Address) (e : Ipv6EndPoint) : Bool :=
  (decide (e.localAddress = daddr) ||
      decide (e.localAddress = Ipv6Address.allRouters)) &&
    decide (e.peerPort = 0) && decide (e.peerAddress = Ipv6Address.any)

/-- The `retval3` test: local wildcard, peer-port exact, peer-address
exact. -/
def bucket3Test (saddr : Ipv6Address) (sport : Nat) (e : Ipv6EndPoint) : Bool :=
  decide (e.localAddress = Ipv6Address.any) && decide (e.peerPort = sport) &&
    decide (e.peerAddress = saddr)

/-- The `retval4` test: local exact, peer-port exact, peer-address
exact. -/
def bucket4Test (daddr saddr : Ipv6Address) (sport : Nat)
    (e : Ipv6EndPoint) : Bool :=
  decide (e.localAddress = daddr) && decide (e.peerPort = sport) &&
    decide (e.peerAddress = saddr)

/-- The final bucket selection of `Lookup` before the abort check:
`retval4` if non-empty, else `retval3`, else `retval2`, else `retval1`. -/
def lookupRetval (d : Ipv6EndPointDemux) (daddr : Ipv6Address) (dport : Nat)
    (saddr : Ipv6Address) (sport : Nat) (iif : Option Nat) :
    List Ipv6EndPoint :=
  let surv := lookupSurvivors d daddr dport saddr sport iif
  let r1 := surv.filter bucket1Test
  let r2 := surv.filter (bucket2Test daddr)
  let r3 := surv.filter (bucket3Test saddr sport)
  let r4 := surv.filter (bucket4Test daddr saddr sport)
  if !r4.isEmpty then r4
  else if !r3.isEmpty then r3
  else if !r2.isEmpty then r2
  else r1

/-- `Ipv6EndPointDemux::Lookup`: bucket selection followed by the
`NS_ABORT_MSG_IF (retval.size () > 1)` check; `none` models the abort. -/
def Lookup (d : Ipv6EndPointDemux) (daddr : Ipv6Address) (dport : Nat)
    (saddr : Ipv6Address) (sport : Nat) (iif : Option Nat) :
    Option (List Ipv6EndPoint) :=
  if 1 < (lookupRetval d daddr dport saddr sport iif).length then none
  else some (lookupRetval d daddr dport saddr sport iif)

/-- The `tmp` counter computed for one endpoint in `SimpleLookup`'s
loop: one increment when the local address is the wildcard, one when the
peer address is the wildcard. -/
def genScore (e : Ipv6EndPoint) : Nat :=
  (if e.localAddress = Ipv6Address.any then 1 else 0) +
    (if e.peerAddress = Ipv6Address.any then 1 else 0)

/-- Loop of `SimpleLookup` with its two pieces of loop-carried state:
`genericity` (best wildcard count seen, initially 3) and `generic` (best
generic candidate, initially null). -/
def simpleLoop (dst : Ipv6Address) (dport : Nat) (src : Ipv6Address)
    (sport : Nat) : List Ipv6EndPoint → Nat → Option Ipv6EndPoint →
    Option Ipv6EndPoint
  | [], _, generic => generic
  | e :: rest, genericity, generic =>
    if e.localPort = dport then
      if e.localAddress = dst ∧ e.peerPort = sport ∧ e.peerAddress = src then
        some e
      else if genScore e < genericity then
        simpleLoop dst dport src sport rest (genScore e) (some e)
      else simpleLoop dst dport src sport rest genericity generic
    else simpleLoop dst dport src sport rest genericity generic

/-- `Ipv6EndPointDemux::SimpleLookup`. -/
def SimpleLookup (d : Ipv6EndPointDemux) (dst : Ipv6Address) (dport : Nat)
    (src : Ipv6Address) (sport : Nat) : Option Ipv6EndPoint :=
  simpleLoop dst dport src sport d.m_endPoints 3 none

/-- Modelled from the spec (§4.2.1): an endpoint survives the arrival
scan when it is receive-enabled, its local port equals the destination
port, its bound device (if any) equals the device of the (present)
incoming interface, its local address matches exactly or is the wildcard,
its peer port matches exactly or is the wildcard 0, and its peer address
matches exactly or is the wildcard. -/
def specSurvives (daddr : Ipv6Address) (dport : Nat) (saddr : Ipv6Address)
    (sport : Nat) (iif : Option Nat) (e : Ipv6EndPoint) : Bool :=
  e.rxEnabled && decide (e.localPort = dport) &&
    deviceTest iif e.boundNetDevice &&
    (decide (e.localAddress = daddr) || decide (e.localAddress = Ipv6Address.any)) &&
    (decide (e.peerPort = sport) || decide (e.peerPort = 0)) &&
    (decide (e.peerAddress = saddr) || decide (e.peerAddress = Ipv6Address.any))

/-- Modelled from the spec (§4.2.1): the four specificity buckets over the
surviving endpoints and the selection of the highest-numbered non-empty
bucket (4 > 3 > 2 > 1). Bucket 1: local wildcard, peer-port wildcard,
peer-address wildcard. Bucket 2: local exact or all-routers, peer
wildcards. Bucket 3: local wildcard, peer exact. Bucket 4: all exact. -/
def specBestMatch (eps : List Ipv6EndPoint) (daddr : Ipv6Address)
    (dport : Nat) (saddr : Ipv6Address) (sport : Nat) (iif : Option Nat) :
    List Ipv6EndPoint :=
  let surviving := eps.filter (specSurvives daddr dport saddr sport iif)
  let b1 := surviving.filter fun e =>
    decide (e.localAddress = Ipv6Address.any) && decide (e.peerPort = 0) &&
      decide (e.peerAddress = Ipv6Address.any)
  let b2 := surviving.filter fun e =>
    (decide (e.localAddress = daddr) ||
        decide (e.localAddress = Ipv6Address.allRouters)) &&
      decide (e.peerPort = 0) && decide (e.peerAddress = Ipv6Address.any)
  let b3 := surviving.filter fun e =>
    decide (e.localAddress = Ipv6Address.any) && decide (e.peerPort = sport) &&
      decide (e.peerAddress = saddr)
  let b4 := surviving.filter fun e =>
    decide (e.localAddress = daddr) && decide (e.peerPort = sport) &&
      decide (e.peerAddress = saddr)
  if !b4.isEmpty then b4
  else if !b3.isEmpty then b3
  else if !b2.isEmpty then b2
  else b1

/-- The exact-hit test of `SimpleLookup` (including the local-port gate
of the loop). -/
def exactTuple (dst : Ipv6Address) (dport : Nat) (src : Ipv6Address)
    (sport : Nat) (e : Ipv6EndPoint) : Bool :=
  decide (e.localPort = dport) && decide (e.localAddress = dst) &&
    decide (e.peerPort = sport) && decide (e.peerAddress = src)

/-- Least wildcard count over a candidate list, 3 when empty (the
initial value of `genericity`). -/
def minGen (l : List Ipv6EndPoint) : Nat :=
  l.foldr (fun e m => min (genScore e) m) 3

/-- Modelled from the spec (§4.2.2): return the first exact hit in scan
order if one exists; otherwise, among endpoints whose local port equals
`dport`, the earliest endpoint attaining the least wildcard count;
otherwise none. -/
def specSimpleLookup (eps : List Ipv6EndPoint) (dst : Ipv6Address)
    (dport : Nat) (src : Ipv6Address) (sport : Nat) : Option Ipv6EndPoint :=
  match eps.find? (exactTuple dst dport src sport) with
  | some e => some e
  | none =>
    (eps.filter fun e => decide (e.localPort = dport)).find? fun e =>
      decide (genScore e =
        minGen (eps.filter fun e => decide (e.localPort = dport)))

/-- The value `SimpleLookup`'s loop computes over the remaining endpoint
list relative to its loop state (`g`, `cand`): the first exact hit when
one exists, else the earliest least-genericity port match when its
genericity beats `g`, else `cand` unchanged. -/
def specLoopTail (dst : Ipv6Address) (dport : Nat) (src : Ipv6Address)
    (sport : Nat) (eps : List Ipv6EndPoint) (g : Nat)
    (cand : Option Ipv6EndPoint) : Option Ipv6EndPoint :=
  match eps.find? (exactTuple dst dport src sport) with
  | some e => some e
  | none =>
    if minGen (eps.filter fun e => decide (e.localPort = dport)) < g then
      (eps.filter fun e => decide (e.localPort = dport)).find? fun e =>
        decide (genScore e =
          minGen (eps.filter fun e => decide (e.localPort = dport)))
    else cand

/-- Local port a call of `AllocateAny` is expected to return on the fresh
demultiplexer with range `[first, last]`: call `i` (0-based) gets
`first + i + 1` until that exceeds `last`, and the last call of a full
round wraps back to `first`. -/
def portOfCall (first last i : Nat) : Nat :=
  if first + i + 1 ≤ last then first + i + 1 else first

/-- Endpoint produced by call `i` of `AllocateAny` on the fresh
demultiplexer with range `[first, last]`. -/
def epOfCall (first last i : Nat) : Ipv6EndPoint :=
  mkEndPoint Ipv6Address.any (portOfCall first last i)

/-- Predicted demultiplexer state after `k` calls of `AllocateAny` on the
fresh demultiplexer with range `[first, last]`. -/
def stateAfter (first last k : Nat) : Ipv6EndPointDemux :=
  { m_endPoints := (List.range k).map (epOfCall first last)
    m_ephemeral := match k with
      | 0 => first
      | j + 1 => portOfCall first last j
    m_portFirst := first
    m_portLast := last }

/-- Iterate `AllocateAny` `n` times, collecting the returned results in
call order together with the final state. -/
def allocAnySeq : Ipv6EndPointDemux → Nat →
    List (Option Ipv6EndPoint) × Ipv6EndPointDemux
  | d, 0 => ([], d)
  | d, n + 1 =>
    let r := AllocateAny d
    let rest := allocAnySeq r.2 n
    (r.1 :: rest.1, rest.2)

/-! Concrete endpoints and demultiplexer states used by the concrete
scenarios below. -/

/-- A concrete destination address used in scenarios. -/
def addrA : Ipv6Address := Ipv6Address.addr 1

/-- A concrete source address used in scenarios. -/
def addrB : Ipv6Address := Ipv6Address.addr 2

/-- Endpoint bound to (any, 80), peer wildcards. -/
def epAnyP : Ipv6EndPoint := mkEndPoint Ipv6Address.any 80

/-- Endpoint bound to (addrA, 80), peer wildcards. -/
def epAP : Ipv6EndPoint := mkEndPoint addrA 80

/-- Endpoint bound to (any, 80), connected to peer addrB:1234. -/
def epAnyPeer : Ipv6EndPoint :=
  { mkEndPoint Ipv6Address.any 80 with peerAddress := addrB, peerPort := 1234 }

/-- Endpoint bound to (addrA, 80), connected to peer addrB:1234. -/
def epFull : Ipv6EndPoint :=
  { mkEndPoint addrA 80 with peerAddress := addrB, peerPort := 1234 }

/-- Exact-match-precedence scenario state: the four endpoints of the
spec's precedence example. -/
def demuxPrec : Ipv6EndPointDemux :=
  { Ipv6EndPointDemux.init with m_endPoints := [epAnyP, epAP, epAnyPeer, epFull] }

/-- Ambiguous state: two identical wildcard listeners on port 80. -/
def demuxAmb : Ipv6EndPointDemux :=
  { Ipv6EndPointDemux.init with
      m_endPoints := [mkEndPoint Ipv6Address.any 80, mkEndPoint Ipv6Address.any 80] }

/-- A receive-disabled endpoint exactly matching the scenario query. -/
def epDisabled : Ipv6EndPoint :=
  { mkEndPoint addrA 80 with peerAddress := addrB, peerPort := 7, rxEnabled := false }

/-- State holding only the receive-disabled endpoint. -/
def demuxDisabled : Ipv6EndPointDemux :=
  { Ipv6EndPointDemux.init with m_endPoints := [epDisabled] }

/-- A device-bound endpoint at (addrA, 7), bound to device 1. -/
def epDevBound : Ipv6EndPoint := { mkEndPoint addrA 7 with boundNetDevice := some 1 }

/-- State holding only the device-bound endpoint at (addrA, 7). -/
def demuxDevBound : Ipv6EndPointDemux :=
  { Ipv6EndPointDemux.init with m_endPoints := [epDevBound] }

/-- A device-bound endpoint at (addrA, 80), bound to device 5. -/
def epDev5 : Ipv6EndPoint := { mkEndPoint addrA 80 with boundNetDevice := some 5 }

/-- State holding only the device-bound endpoint at (addrA, 80). -/
def demuxDev5 : Ipv6EndPointDemux :=
  { Ipv6EndPointDemux.init with m_endPoints := [epDev5] }

/-- A wildcard listener on port 80 (matches the scenario query through
wildcards). -/
def epWild : Ipv6EndPoint := mkEndPoint Ipv6Address.any 80

/-- A fully bound endpoint on port 80 whose addresses match nothing in
the scenario query. -/
def epStranger : Ipv6EndPoint :=
  { mkEndPoint (Ipv6Address.addr 5) 80 with
      peerAddress := Ipv6Address.addr 6, peerPort := 999 }

/-- State with the wildcard listener first and the stranger endpoint
second. -/
def demuxStranger : Ipv6EndPointDemux :=
  { Ipv6EndPointDemux.init with m_endPoints := [epWild, epStranger] }

/-- The endpoint produced by the first `AllocateAny` on the fresh
demultiplexer with range `[49152, 49154]`. -/
def epFirstAlloc : Ipv6EndPoint := mkEndPoint Ipv6Address.any 49153

/-- The state after the first `AllocateAny` on the fresh demultiplexer
with range `[49152, 49154]`. -/
def demuxAfterOne : Ipv6EndPointDemux :=
  { m_endPoints := [epFirstAlloc]
    m_ephemeral := 49153
    m_portFirst := 49152
    m_portLast := 49154 }

/-- State holding one endpoint at (addrA, 7) with no bound device. -/
def demuxAnyBound : Ipv6EndPointDemux :=
  { Ipv6EndPointDemux.init with m_endPoints := [mkEndPoint addrA 7] }

/-- State with a device-bound endpoint and a wildcard listener, both on
port 80. -/
def demuxDevAndWild : Ipv6EndPointDemux :=
  { Ipv6EndPointDemux.init with m_endPoints := [epDev5, epWild] }

/-! Helper lemmas shared by the claims. -/

/-- A successful return of `Lookup` is the selected bucket. -/
theorem Lookup_eq_some (d : Ipv6EndPointDemux) (daddr : Ipv6Address)
    (dport : Nat) (saddr : Ipv6Address) (sport : Nat) (iif : Option Nat)
    (r : List Ipv6EndPoint)
    (h : Lookup d daddr dport saddr sport iif = some r) :
    r = lookupRetval d daddr dport saddr sport iif := by
  unfold Lookup at h
  split at h
  · exact absurd h (by simp)
  · exact (Option.some.injEq _ _ ▸ h).symm

/-- Every endpoint of the selected bucket passed all of `Lookup`'s
per-endpoint tests. -/
theorem mem_lookupRetval_matches (d : Ipv6EndPointDemux)
    (daddr : Ipv6Address) (dport : Nat) (saddr : Ipv6Address) (sport : Nat)
    (iif : Option Nat) (e : Ipv6EndPoint)
    (h : e ∈ lookupRetval d daddr dport saddr sport iif) :
    lookupMatches daddr dport saddr sport iif e = true := by
  unfold lookupRetval lookupSurvivors at h
  simp only at h
  split at h
  · exact (List.mem_filter.mp (List.mem_filter.mp h).1).2
  · split at h
    · exact (List.mem_filter.mp (List.mem_filter.mp h).1).2
    · split at h
      · exact (List.mem_filter.mp (List.mem_filter.mp h).1).2
      · exact (List.mem_filter.mp (List.mem_filter.mp h).1).2

/-- `LookupLocal` succeeds exactly when some endpoint carries the given
(port, address, device) triple. -/
theorem LookupLocal_iff (d : Ipv6EndPointDemux) (dev : Option Nat)
    (a : Ipv6Address) (port : Nat) :
    LookupLocal d dev a port = true ↔
      ∃ e ∈ d.m_endPoints, e.localPort = port ∧ e.localAddress = a ∧
        e.boundNetDevice = dev := by
  unfold LookupLocal
  simp [List.any_eq_true, and_assoc]

/-- Claim C1: for every endpoint collection and arrival query, `Lookup`'s
bucket stage classifies each surviving endpoint into the four specificity
buckets exactly as the specification states them and returns the
highest-numbered non-empty bucket; and on the exact-match-precedence
scenario (endpoints bound to (any, 80), (addrA, 80), (any, 80, peer
addrB:1234) and (addrA, 80, peer addrB:1234), arrival dst=addrA,
dport=80, src=addrB, sport=1234) `Lookup` returns exactly the fully
specified endpoint. -/
theorem lookup_bucket_classification :
    (∀ (d : Ipv6EndPointDemux) (daddr : Ipv6Address) (dport : Nat)
        (saddr : Ipv6Address) (sport : Nat) (iif : Option Nat),
      lookupRetval d daddr dport saddr sport iif =
        specBestMatch d.m_endPoints daddr dport saddr sport iif) ∧
    Lookup demuxPrec addrA 80 addrB 1234 none = some [epFull] :=
  ⟨fun _ _ _ _ _ _ => rfl, by decide⟩

/-- Claim C2: any result actually returned by `Lookup` has at most one
endpoint; whenever the selected most-specific bucket holds more than one
endpoint, `Lookup` aborts (modelled as `none`) instead of returning. -/
theorem lookup_at_most_one (d : Ipv6EndPointDemux) (daddr : Ipv6Address)
    (dport : Nat) (saddr : Ipv6Address) (sport : Nat) (iif : Option Nat) :
    (∀ r, Lookup d daddr dport saddr sport iif = some r → r.length ≤ 1) ∧
    (1 < (lookupRetval d daddr dport saddr sport iif).length →
      Lookup d daddr dport saddr sport iif = none) := by
  constructor
  · intro r h
    unfold Lookup at h
    split at h
    · exact absurd h (by simp)
    · rename_i hlen
      obtain rfl : lookupRetval d daddr dport saddr sport iif = r :=
        Option.some.inj h
      omega
  · intro h
    unfold Lookup
    simp [h]

/-- Witness for C2: on the state with two identical wildcard listeners on
port 80 the lookup aborts. -/
theorem lookup_at_most_one_witness :
    Lookup demuxAmb addrA 80 addrB 7 none = none :=
  (lookup_at_most_one demuxAmb addrA 80 addrB 7 none).2 (by decide)

/-- Claim C3 (amended): `Allocate(device, address, port)` fails, leaving
the state unchanged, exactly when some existing endpoint carries the same
local port and address and is bound to the caller's device or to no
device; in particular a device-specific request is rejected against an
existing any-device binding, while (per the counterexample) the converse
rejection does not occur. -/
theorem allocateAt_conflict (d : Ipv6EndPointDemux) (dev : Option Nat)
    (a : Ipv6Address) (port : Nat) :
    ((AllocateDevAddrPort d dev a port).1 = none ↔
      ∃ e ∈ d.m_endPoints, e.localPort = port ∧ e.localAddress = a ∧
        (e.boundNetDevice = dev ∨ e.boundNetDevice = none)) ∧
    ((AllocateDevAddrPort d dev a port).1 = none →
      (AllocateDevAddrPort d dev a port).2 = d) ∧
    (∀ dd : Nat, dev = some dd →
      (∃ e ∈ d.m_endPoints, e.localPort = port ∧ e.localAddress = a ∧
        e.boundNetDevice = none) →
      (AllocateDevAddrPort d dev a port).1 = none) := by
  have hiff : (AllocateDevAddrPort d dev a port).1 = none ↔
      (LookupLocal d dev a port || LookupLocal d none a port) = true := by
    unfold AllocateDevAddrPort
    split
    · rename_i hc
      simp [hc]
    · rename_i hc
      simp [hc]
  have hlook : (LookupLocal d dev a port || LookupLocal d none a port) = true ↔
      ∃ e ∈ d.m_endPoints, e.localPort = port ∧ e.localAddress = a ∧
        (e.boundNetDevice = dev ∨ e.boundNetDevice = none) := by
    rw [Bool.or_eq_true, LookupLocal_iff, LookupLocal_iff]
    constructor
    · rintro (⟨e, he, h1, h2, h3⟩ | ⟨e, he, h1, h2, h3⟩)
      · exact ⟨e, he, h1, h2, Or.inl h3⟩
      · exact ⟨e, he, h1, h2, Or.inr h3⟩
    · rintro ⟨e, he, h1, h2, h3 | h3⟩
      · exact Or.inl ⟨e, he, h1, h2, h3⟩
      · exact Or.inr ⟨e, he, h1, h2, h3⟩
  refine ⟨hiff.trans hlook, ?_, ?_⟩
  · intro h
    unfold AllocateDevAddrPort at h ⊢
    split at h
    · rename_i hc
      simp [hc]
    · exact absurd h (by simp)
  · intro dd _ hex
    refine (hiff.trans hlook).mpr ?_
    obtain ⟨e, he, h1, h2, h3⟩ := hex
    exact ⟨e, he, h1, h2, Or.inr h3⟩

/-- Witness for C3: a device-specific request at (addrA, 7) is rejected
without a state change when an any-device endpoint already holds
(addrA, 7). -/
theorem allocateAt_conflict_witness :
    (AllocateDevAddrPort demuxAnyBound (some 1) addrA 7).1 = none ∧
    (AllocateDevAddrPort demuxAnyBound (some 1) addrA 7).2 = demuxAnyBound := by
  have h1 := (allocateAt_conflict demuxAnyBound (some 1) addrA 7).2.2 1 rfl
    ⟨mkEndPoint addrA 7, by decide, by decide, by decide, by decide⟩
  exact ⟨h1, (allocateAt_conflict demuxAnyBound (some 1) addrA 7).2.1 h1⟩

/-- Counterexample for C3 as stated: with a device-bound endpoint at
(addrA, 7) already present, a new any-device allocation at the same
(address, port) succeeds and inserts a second endpoint, so the promised
converse collision protection does not hold. -/
theorem allocateAt_conflict_counterexample :
    epDevBound.localAddress = addrA ∧ epDevBound.localPort = 7 ∧
    epDevBound.boundNetDevice = some 1 ∧
    demuxDevBound.m_endPoints = [epDevBound] ∧
    (AllocateDevAddrPort demuxDevBound none addrA 7).1 =
      some (mkEndPoint addrA 7) ∧
    (AllocateDevAddrPort demuxDevBound none addrA 7).2.m_endPoints =
      [epDevBound, mkEndPoint addrA 7] := by decide

/-- Claim C5 (amended): the ephemeral-port allocators never hand out a
zero local port: a successful `Allocate()` or `Allocate(address)` always
returns an endpoint with nonzero local port (0 is the exhaustion marker
and is rejected). -/
theorem ephemeral_alloc_port_nonzero (d : Ipv6EndPointDemux)
    (a : Ipv6Address) (e : Ipv6EndPoint) (d2 : Ipv6EndPointDemux) :
    (AllocateAny d = (some e, d2) → e.localPort ≠ 0) ∧
    (AllocateAddr d a = (some e, d2) → e.localPort ≠ 0) := by
  constructor
  · intro h
    simp only [AllocateAny] at h
    split at h
    · exact absurd h (by simp)
    · rename_i hp
      cases h
      simpa [mkEndPoint] using hp
  · intro h
    simp only [AllocateAddr] at h
    split at h
    · exact absurd h (by simp)
    · rename_i hp
      cases h
      simpa [mkEndPoint] using hp

/-- Witness for C5: the first allocation on the fresh [49152, 49154]
demultiplexer yields port 49153, which is nonzero. -/
theorem ephemeral_alloc_port_nonzero_witness :
    AllocateAny (freshDemux 49152 49154) = (some epFirstAlloc, demuxAfterOne) ∧
    epFirstAlloc.localPort ≠ 0 :=
  ⟨by decide, (ephemeral_alloc_port_nonzero (freshDemux 49152 49154)
      Ipv6Address.any epFirstAlloc demuxAfterOne).1 (by decide)⟩

/-- Counterexample for C5 as stated: `Allocate(device, address, port)`
performs no nonzero check on the caller's port, so requesting port 0 on
the fresh demultiplexer succeeds and an endpoint with localPort 0 enters
the collection. -/
theorem explicit_alloc_port_zero_counterexample :
    ((AllocateDevAddrPort Ipv6EndPointDemux.init none addrA 0).1.map
        Ipv6EndPoint.localPort) = some 0 ∧
    ((AllocateDevAddrPort Ipv6EndPointDemux.init none addrA 0).2.m_endPoints.any
        fun e => decide (e.localPort = 0)) = true := by decide

/-- Claim C6: an endpoint bound to a device is never among `Lookup`'s
results when no incoming interface is supplied or when the incoming
interface's device differs from the bound device. -/
theorem lookup_device_scoping (d : Ipv6EndPointDemux) (daddr : Ipv6Address)
    (dport : Nat) (saddr : Ipv6Address) (sport : Nat) (iif : Option Nat)
    (r : List Ipv6EndPoint) (e : Ipv6EndPoint) (dev : Nat)
    (hb : e.boundNetDevice = some dev)
    (h : Lookup d daddr dport saddr sport iif = some r)
    (hmiss : iif = none ∨ ∃ idev, iif = some idev ∧ idev ≠ dev) :
    e ∉ r := by
  intro he
  obtain rfl := Lookup_eq_some d daddr dport saddr sport iif r h
  have hm := mem_lookupRetval_matches d daddr dport saddr sport iif e he
  unfold lookupMatches at hm
  simp only [Bool.and_eq_true] at hm
  have hdev := hm.1.1.1.2
  rw [hb] at hdev
  rcases hmiss with hnone | ⟨idev, hsome, hne⟩
  · rw [hnone] at hdev
    simp [deviceTest] at hdev
  · rw [hsome] at hdev
    simp [deviceTest] at hdev
    exact hne hdev.symm

/-- Witness for C6: with a wildcard listener and an endpoint bound to
device 5, an arrival on device 6 returns the listener and the bound
endpoint is not in the result. -/
theorem lookup_device_scoping_witness :
    Lookup demuxDevAndWild addrA 80 addrB 7 (some 6) = some [epWild] ∧
    epDev5 ∉ [epWild] :=
  ⟨by decide, lookup_device_scoping demuxDevAndWild addrA 80 addrB 7 (some 6)
      [epWild] epDev5 5 (by decide) (by decide)
      (Or.inr ⟨6, rfl, by decide⟩)⟩

/-- Claim C7 (amended): receive-disabled endpoints never appear in the
results of the best-match `Lookup`; `SimpleLookup`, however, performs no
rxEnabled check and can return a disabled endpoint. -/
theorem lookup_excludes_disabled :
    (∀ (d : Ipv6EndPointDemux) (daddr : Ipv6Address) (dport : Nat)
        (saddr : Ipv6Address) (sport : Nat) (iif : Option Nat)
        (r : List Ipv6EndPoint) (e : Ipv6EndPoint),
      Lookup d daddr dport saddr sport iif = some r → e ∈ r →
        e.rxEnabled = true) ∧
    (SimpleLookup demuxDisabled addrA 80 addrB 7 = some epDisabled ∧
      epDisabled.rxEnabled = false) := by
  constructor
  · intro d daddr dport saddr sport iif r e h he
    obtain rfl := Lookup_eq_some d daddr dport saddr sport iif r h
    have hm := mem_lookupRetval_matches d daddr dport saddr sport iif e he
    unfold lookupMatches at hm
    simp only [Bool.and_eq_true] at hm
    exact hm.1.1.1.1.1
  · exact by decide

/-- Witness for C7: a concrete `Lookup` result whose endpoint is
receive-enabled. -/
theorem lookup_excludes_disabled_witness :
    Lookup demuxDev5 addrA 80 addrB 7 (some 5) = some [epDev5] ∧
    epDev5.rxEnabled = true :=
  ⟨by decide, lookup_excludes_disabled.1 demuxDev5 addrA 80 addrB 7 (some 5)
      [epDev5] epDev5 (by decide) (by decide)⟩

/-- Counterexample for C7 as stated: `SimpleLookup` returns the
receive-disabled endpoint that exactly matches the query, so disabled
endpoints are not excluded from every arrival lookup. -/
theorem simpleLookup_returns_disabled_counterexample :
    SimpleLookup demuxDisabled addrA 80 addrB 7 = some epDisabled ∧
    epDisabled.rxEnabled = false := by decide

/-- Claim C10: on a state holding a wildcard listener (scanned first) and
an endpoint on the same port whose local address matches neither the
destination nor the wildcard and whose peer fields do not match the
source, `SimpleLookup` returns the mismatched endpoint (genericity 0)
in preference to the correctly matching wildcard listener. -/
theorem simpleLookup_generic_mismatch :
    demuxStranger.m_endPoints = [epWild, epStranger] ∧
    SimpleLookup demuxStranger addrA 80 addrB 7 = some epStranger ∧
    epStranger.localAddress ≠ addrA ∧
    epStranger.localAddress ≠ Ipv6Address.any ∧
    epStranger.peerAddress ≠ addrB ∧ epStranger.peerPort ≠ 7 ∧
    genScore epStranger = 0 ∧
    epWild.localAddress = Ipv6Address.any ∧ epWild.localPort = 80 := by decide

/-- A port returned by the ephemeral scan is not held by any endpoint of
the scanned collection. -/
theorem scanPort_some_free (eps : List Ipv6EndPoint) (first last : Nat) :
    ∀ fuel port p, scanPort eps first last fuel port = some p →
      lookupPortLocalList eps p = false := by
  intro fuel
  induction fuel with
  | zero =>
    intro port p h
    exact absurd h (by simp [scanPort])
  | succ n ih =>
    intro port p h
    unfold scanPort at h
    simp only at h
    split at h
    all_goals split at h
    all_goals try exact ih _ _ h
    all_goals
      rename_i hfree
      obtain rfl := Option.some.inj h
      simpa using hfree

/-- A nonzero result of `AllocateEphemeralPort` is a port free in the
collection, and the endpoint collection itself is untouched. -/
theorem AllocateEphemeralPort_free (d : Ipv6EndPointDemux)
    (h : (AllocateEphemeralPort d).1 ≠ 0) :
    lookupPortLocalList d.m_endPoints (AllocateEphemeralPort d).1 = false ∧
    (AllocateEphemeralPort d).2.m_endPoints = d.m_endPoints := by
  unfold AllocateEphemeralPort at h ⊢
  cases hscan : scanPort d.m_endPoints d.m_portFirst d.m_portLast
      (d.m_portLast + 1 - d.m_portFirst) d.m_ephemeral with
  | none => rw [hscan] at h; simp at h
  | some p =>
    exact ⟨scanPort_some_free d.m_endPoints d.m_portFirst d.m_portLast _ _ p
      hscan, rfl⟩

/-- Structure of a successful `AllocateAny`: the returned endpoint is the
wildcard endpoint at a port free in the old collection, appended at the
back. -/
theorem AllocateAny_some (d : Ipv6EndPointDemux) (e : Ipv6EndPoint)
    (d2 : Ipv6EndPointDemux) (h : AllocateAny d = (some e, d2)) :
    e = mkEndPoint Ipv6Address.any e.localPort ∧
    lookupPortLocalList d.m_endPoints e.localPort = false ∧
    d2.m_endPoints = d.m_endPoints ++ [e] := by
  simp only [AllocateAny] at h
  split at h
  · exact absurd h (by simp)
  · rename_i hp
    have hfree := AllocateEphemeralPort_free d hp
    cases h
    exact ⟨rfl, hfree.1, by rw [hfree.2]⟩

/-- Removing `e` appended at the back of a list that does not contain it
recovers the original list. -/
theorem removeFirst_append (l : List Ipv6EndPoint) (e : Ipv6EndPoint)
    (h : ∀ x ∈ l, x ≠ e) : removeFirst (l ++ [e]) e = l := by
  induction l with
  | nil => simp [removeFirst]
  | cons x xs ih =>
    simp only [List.cons_append, removeFirst]
    rw [if_neg (h x (List.mem_cons_self x xs))]
    exact congrArg (fun l => x :: l)
      (ih fun y hy => h y (List.mem_cons_of_mem x hy))

/-- Claim C9: a successful `AllocateAny` immediately followed by
`DeAllocate` of the returned endpoint restores the endpoint collection,
so no endpoint holds the freed port and a later ephemeral scan may
reassign it. -/
theorem allocate_deallocate_roundtrip (d : Ipv6EndPointDemux)
    (e : Ipv6EndPoint) (d2 : Ipv6EndPointDemux)
    (h : AllocateAny d = (some e, d2)) :
    (DeAllocate d2 e).m_endPoints = d.m_endPoints ∧
    LookupPortLocal (DeAllocate d2 e) e.localPort = false := by
  obtain ⟨hshape, hfree, heps⟩ := AllocateAny_some d e d2 h
  have hport : ∀ x ∈ d.m_endPoints, x.localPort ≠ e.localPort := by
    intro x hx hxeq
    have htrue : lookupPortLocalList d.m_endPoints e.localPort = true := by
      simp only [lookupPortLocalList, List.any_eq_true]
      exact ⟨x, hx, by simp [hxeq]⟩
    simp [hfree] at htrue
  have hne : ∀ x ∈ d.m_endPoints, x ≠ e := by
    intro x hx hxe
    exact hport x hx (by rw [hxe])
  have hrm : (DeAllocate d2 e).m_endPoints = d.m_endPoints := by
    unfold DeAllocate
    rw [heps]
    exact removeFirst_append d.m_endPoints e hne
  refine ⟨hrm, ?_⟩
  unfold LookupPortLocal
  rw [hrm]
  exact hfree

/-- The `tmp` counter of one endpoint never exceeds 2. -/
theorem genScore_le_two (e : Ipv6EndPoint) : genScore e ≤ 2 := by
  unfold genScore
  split <;> split <;> omega

/-- The loop of `SimpleLookup` computes `specLoopTail` whenever its
genericity bound is at most the initial 3. -/
theorem simpleLoop_spec (dst : Ipv6Address) (dport : Nat) (src : Ipv6Address)
    (sport : Nat) :
    ∀ (eps : List Ipv6EndPoint) (g : Nat) (cand : Option Ipv6EndPoint),
      g ≤ 3 →
      simpleLoop dst dport src sport eps g cand =
        specLoopTail dst dport src sport eps g cand := by
  intro eps
  induction eps with
  | nil =>
    intro g cand hg
    simp only [simpleLoop, specLoopTail, List.find?_nil, List.filter_nil]
    rw [show minGen [] = 3 from rfl, if_neg (by omega)]
  | cons e rest ih =>
    intro g cand hg
    by_cases hpm : e.localPort = dport
    · by_cases hex : e.localAddress = dst ∧ e.peerPort = sport ∧ e.peerAddress = src
      · have hexact : exactTuple dst dport src sport e = true := by
          simp [exactTuple, hpm, hex.1, hex.2.1, hex.2.2]
        simp only [simpleLoop, specLoopTail]
        rw [if_pos hpm, if_pos hex, List.find?_cons_of_pos _ hexact]
      · have hexact : ¬ exactTuple dst dport src sport e = true := by
          intro hc
          simp only [exactTuple, Bool.and_eq_true, decide_eq_true_eq] at hc
          exact hex ⟨hc.1.1.2, hc.1.2, hc.2⟩
        have hfilter : (fun x : Ipv6EndPoint => decide (x.localPort = dport)) e = true := by
          simp [hpm]
        have hg2 : genScore e ≤ 3 := le_trans (genScore_le_two e) (by omega)
        simp only [simpleLoop]
        rw [if_pos hpm, if_neg hex, ih (genScore e) (some e) hg2, ih g cand hg]
        simp only [specLoopTail]
        rw [List.find?_cons_of_neg _ hexact,
          @List.filter_cons_of_pos Ipv6EndPoint
            (fun x : Ipv6EndPoint => decide (x.localPort = dport)) e rest hfilter]
        cases hfind : List.find? (exactTuple dst dport src sport) rest with
        | some f =>
          dsimp only
          split <;> rfl
        | none =>
          dsimp only
          rw [show minGen (e :: List.filter
                (fun x : Ipv6EndPoint => decide (x.localPort = dport)) rest) =
              min (genScore e) (minGen (List.filter
                (fun x : Ipv6EndPoint => decide (x.localPort = dport)) rest))
            from rfl]
          by_cases h1 : minGen (List.filter
              (fun x : Ipv6EndPoint => decide (x.localPort = dport)) rest) < genScore e
          · rw [show min (genScore e) (minGen (List.filter
                  (fun x : Ipv6EndPoint => decide (x.localPort = dport)) rest)) =
                minGen (List.filter
                  (fun x : Ipv6EndPoint => decide (x.localPort = dport)) rest)
              by omega]
            by_cases h2 : genScore e < g
            · rw [if_pos h2, if_pos h1, if_pos (show _ by omega),
                List.find?_cons_of_neg _ (by simp only [decide_eq_true_eq]; omega)]
            · rw [if_neg h2]
              by_cases h3 : minGen (List.filter
                  (fun x : Ipv6EndPoint => decide (x.localPort = dport)) rest) < g
              · rw [if_pos h3, if_pos h3,
                  List.find?_cons_of_neg _ (by simp only [decide_eq_true_eq]; omega)]
              · rw [if_neg h3, if_neg h3]
          · rw [show min (genScore e) (minGen (List.filter
                  (fun x : Ipv6EndPoint => decide (x.localPort = dport)) rest)) =
                genScore e
              by omega]
            by_cases h2 : genScore e < g
            · rw [if_pos h2, if_neg h1, if_pos h2,
                List.find?_cons_of_pos _ (by simp only [decide_eq_true_eq])]
            · rw [if_neg h2, if_neg (show ¬ minGen (List.filter
                  (fun x : Ipv6EndPoint => decide (x.localPort = dport)) rest) < g
                by omega), if_neg h2]
    · have hexact : ¬ exactTuple dst dport src sport e = true := by
        intro hc
        simp only [exactTuple, Bool.and_eq_true, decide_eq_true_eq] at hc
        exact hpm hc.1.1.1
      have hfilter : ¬ (fun x : Ipv6EndPoint => decide (x.localPort = dport)) e = true := by
        simp [hpm]
      simp only [simpleLoop]
      rw [if_neg hpm, ih g cand hg]
      simp only [specLoopTail]
      rw [List.find?_cons_of_neg _ hexact,
        @List.filter_cons_of_neg Ipv6EndPoint
          (fun x : Ipv6EndPoint => decide (x.localPort = dport)) e rest hfilter]

/-- Claim C8: `SimpleLookup` returns the first endpoint matching the
exact (dst, dport, src, sport) tuple in scan order when one exists;
otherwise, among endpoints whose local port equals `dport`, the earliest
endpoint with the fewest wildcard fields among local and peer address;
otherwise none. -/
theorem simpleLookup_characterization (d : Ipv6EndPointDemux)
    (dst : Ipv6Address) (dport : Nat) (src : Ipv6Address) (sport : Nat) :
    SimpleLookup d dst dport src sport =
      specSimpleLookup d.m_endPoints dst dport src sport := by
  unfold SimpleLookup
  rw [simpleLoop_spec dst dport src sport d.m_endPoints 3 none (le_refl 3)]
  simp only [specLoopTail, specSimpleLookup]
  cases hfind : List.find? (exactTuple dst dport src sport) d.m_endPoints with
  | some f => rfl
  | none =>
    dsimp only
    cases hcs : List.filter (fun e : Ipv6EndPoint => decide (e.localPort = dport))
        d.m_endPoints with
    | nil => rw [show minGen [] = 3 from rfl, if_neg (by omega), List.find?_nil]
    | cons x l =>
      have h1 : minGen (x :: l) ≤ 2 :=
        le_trans (min_le_left (genScore x) (minGen l)) (genScore_le_two x)
      rw [if_pos (show minGen (x :: l) < 3 by omega)]

/-- Witness for C9: allocate on the fresh [49152, 49154] demultiplexer
(port 49153) and deallocate; the collection is empty again and port
49153 is free. -/
theorem allocate_deallocate_roundtrip_witness :
    (DeAllocate demuxAfterOne epFirstAlloc).m_endPoints =
      (freshDemux 49152 49154).m_endPoints ∧
    LookupPortLocal (DeAllocate demuxAfterOne epFirstAlloc)
      epFirstAlloc.localPort = false :=
  allocate_deallocate_roundtrip (freshDemux 49152 49154) epFirstAlloc
    demuxAfterOne (by decide)

/-- No port predicted for the first `last - first + 1` calls is held by
an endpoint of the predicted state when `q` avoids the linear ports. -/
theorem stateAfter_port_free (first last k q : Nat) (hk : k ≤ last - first)
    (hq : ∀ i, i < k → q ≠ first + i + 1) :
    lookupPortLocalList ((List.range k).map (epOfCall first last)) q = false := by
  rw [lookupPortLocalList, List.any_eq_false]
  intro x hx
  simp only [List.mem_map, List.mem_range] at hx
  obtain ⟨i, hi, rfl⟩ := hx
  simp only [epOfCall, mkEndPoint, decide_eq_true_eq]
  unfold portOfCall
  rw [if_pos (by omega : first + i + 1 ≤ last)]
  exact fun hc => hq i hi hc.symm

/-- The ephemeral state of the predicted state after `k` calls is
`first + k` while `k` stays within the range. -/
theorem stateAfter_eph (first last k : Nat) (hk : k ≤ last - first) :
    (stateAfter first last k).m_ephemeral = first + k := by
  cases k with
  | zero => simp [stateAfter]
  | succ j =>
    show portOfCall first last j = first + (j + 1)
    unfold portOfCall
    rw [if_pos (by omega)]
    omega

/-- One step: while the range is not exhausted, `AllocateAny` on the
predicted state after `k` calls succeeds with the predicted endpoint and
moves to the predicted state after `k + 1` calls. -/
theorem allocAny_step (first last k : Nat) (h0 : 0 < first)
    (hfl : first ≤ last) (hmax : last ≤ 65535) (hk : k ≤ last - first) :
    AllocateAny (stateAfter first last k) =
      (some (epOfCall first last k), stateAfter first last (k + 1)) := by
  have hfree : lookupPortLocalList ((List.range k).map (epOfCall first last))
      (portOfCall first last k) = false := by
    apply stateAfter_port_free first last k _ hk
    intro i hi
    unfold portOfCall
    split <;> omega
  have hscan : scanPort ((List.range k).map (epOfCall first last)) first last
      ((last - first) + 1) (first + k) = some (portOfCall first last k) := by
    simp only [scanPort]
    have hcand : (if (decide ((first + k + 1) % 65536 < first) ||
        decide (last < (first + k + 1) % 65536)) = true then first
        else (first + k + 1) % 65536) = portOfCall first last k := by
      rcases Nat.lt_or_ge k (last - first) with hcase | hcase
      · have hport : portOfCall first last k = first + k + 1 := by
          unfold portOfCall
          rw [if_pos (by omega)]
        rw [Nat.mod_eq_of_lt (by omega : first + k + 1 < 65536), hport]
        exact if_neg (by simp only [Bool.or_eq_true, decide_eq_true_eq]; omega)
      · have hport : portOfCall first last k = first := by
          unfold portOfCall
          rw [if_neg (by omega)]
        have hwrap : ((first + k + 1) % 65536 < first ∨
            last < (first + k + 1) % 65536) := by
          rcases Nat.lt_or_ge (first + k + 1) 65536 with h | h
          · rw [Nat.mod_eq_of_lt h]
            omega
          · have h1 : first + k + 1 = 65536 := by omega
            rw [h1, Nat.mod_self]
            omega
        rw [hport]
        exact if_pos (by simp only [Bool.or_eq_true, decide_eq_true_eq]; exact hwrap)
    rw [hcand, hfree, if_neg Bool.false_ne_true]
  have heph : (stateAfter first last k).m_ephemeral = first + k :=
    stateAfter_eph first last k hk
  have hfuel : (stateAfter first last k).m_portLast + 1 -
      (stateAfter first last k).m_portFirst = (last - first) + 1 := by
    show last + 1 - first = (last - first) + 1
    omega
  have halloc : AllocateEphemeralPort (stateAfter first last k) =
      (portOfCall first last k,
       { m_endPoints := (List.range k).map (epOfCall first last)
         m_ephemeral := portOfCall first last k
         m_portFirst := first
         m_portLast := last }) := by
    unfold AllocateEphemeralPort
    rw [heph, hfuel]
    show (match scanPort ((List.range k).map (epOfCall first last)) first last
        ((last - first) + 1) (first + k) with
      | none => (0, stateAfter first last k)
      | some p => (p,
          { m_endPoints := (List.range k).map (epOfCall first last)
            m_ephemeral := p
            m_portFirst := first
            m_portLast := last })) = _
    rw [hscan]
  have hpz : ¬ portOfCall first last k = 0 := by
    unfold portOfCall
    split <;> omega
  simp only [AllocateAny]
  rw [halloc]
  simp only
  rw [if_neg hpz]
  simp only [Prod.mk.injEq]
  refine ⟨rfl, ?_⟩
  simp [stateAfter, List.range_succ, epOfCall]

/-- Running `AllocateAny` from the predicted state after `k` calls for
the remaining `m` calls of a full round yields the predicted endpoints
and ends in the predicted full state. -/
theorem allocAnySeq_run (first last : Nat) (h0 : 0 < first)
    (hfl : first ≤ last) (hmax : last ≤ 65535) :
    ∀ m k, k + m = (last - first) + 1 →
      allocAnySeq (stateAfter first last k) m =
        ((List.range' k m).map fun i => some (epOfCall first last i),
          stateAfter first last ((last - first) + 1)) := by
  intro m
  induction m with
  | zero =>
    intro k hk
    obtain rfl : k = (last - first) + 1 := by omega
    simp [allocAnySeq]
  | succ n ih =>
    intro k hk
    have hstep := allocAny_step first last k h0 hfl hmax (by omega)
    simp only [allocAnySeq]
    rw [hstep]
    simp only
    rw [ih (k + 1) (by omega)]
    simp [List.range'_succ]

/-- When every port of the range is already used, the ephemeral scan
fails from any start and with any fuel. -/
theorem scanPort_all_used (eps : List Ipv6EndPoint) (first last : Nat)
    (hall : ∀ q, first ≤ q → q ≤ last → lookupPortLocalList eps q = true)
    (hfl : first ≤ last) :
    ∀ fuel port, scanPort eps first last fuel port = none := by
  intro fuel
  induction fuel with
  | zero => intro port; rfl
  | succ n ih =>
    intro port
    unfold scanPort
    simp only
    split
    · split
      · exact ih _
      · rename_i hfree
        exact absurd (hall first (le_refl first) hfl) hfree
    · rename_i hwrap
      split
      · exact ih _
      · rename_i hfree
        simp only [Bool.or_eq_true, decide_eq_true_eq] at hwrap
        push_neg at hwrap
        exact absurd (hall _ (by omega) (by omega)) hfree

/-- After a full round of calls, every port of the range is used in the
predicted state. -/
theorem stateAfter_full (first last : Nat) (hfl : first ≤ last) :
    ∀ q, first ≤ q → q ≤ last →
      lookupPortLocalList ((List.range ((last - first) + 1)).map
        (epOfCall first last)) q = true := by
  intro q hq1 hq2
  rw [lookupPortLocalList, List.any_eq_true]
  by_cases hqf : q = first
  · refine ⟨epOfCall first last (last - first),
      List.mem_map.mpr ⟨last - first, List.mem_range.mpr (by omega), rfl⟩, ?_⟩
    simp only [epOfCall, mkEndPoint, decide_eq_true_eq]
    unfold portOfCall
    rw [if_neg (by omega)]
    omega
  · refine ⟨epOfCall first last (q - first - 1),
      List.mem_map.mpr ⟨q - first - 1, List.mem_range.mpr (by omega), rfl⟩, ?_⟩
    simp only [epOfCall, mkEndPoint, decide_eq_true_eq]
    unfold portOfCall
    rw [if_pos (by omega)]
    omega

/-- The ports handed out in one full round are pairwise distinct. -/
theorem ports_nodup (first last : Nat) (hfl : first ≤ last) :
    ((List.range ((last - first) + 1)).map (portOfCall first last)).Nodup := by
  have hpair : List.Pairwise
      (fun a b => portOfCall first last a ≠ portOfCall first last b)
      (List.range ((last - first) + 1)) := by
    refine List.Pairwise.imp_of_mem ?_
      (List.pairwise_lt_range ((last - first) + 1))
    intro a b ha hb hlt
    rw [List.mem_range] at ha hb
    unfold portOfCall
    split <;> split <;> omega
  exact List.pairwise_map.mpr hpair

/-- Claim C4: starting from the fresh demultiplexer whose ephemeral range
[first, last] holds N = last - first + 1 ports, the first N `AllocateAny`
calls all succeed with N pairwise-distinct ports and the (N+1)-th call
fails; concretely, with range [49152, 49154] the three calls return ports
49153, 49154, 49152 in that order and the fourth call fails. -/
theorem allocAny_exhaustion :
    (∀ first last : Nat, 0 < first → first ≤ last → last ≤ 65535 →
      (allocAnySeq (freshDemux first last) ((last - first) + 1)).1 =
        (List.range ((last - first) + 1)).map
          (fun i => some (epOfCall first last i)) ∧
      ((List.range ((last - first) + 1)).map (portOfCall first last)).Nodup ∧
      (AllocateAny (allocAnySeq (freshDemux first last)
        ((last - first) + 1)).2).1 = none) ∧
    ((allocAnySeq (freshDemux 49152 49154) 3).1.map
        (Option.map Ipv6EndPoint.localPort) =
      [some 49153, some 49154, some 49152] ∧
     (AllocateAny (allocAnySeq (freshDemux 49152 49154) 3).2).1 = none) := by
  constructor
  · intro first last h0 hfl hmax
    have h00 : stateAfter first last 0 = freshDemux first last := by
      simp [stateAfter, freshDemux]
    have hrun := allocAnySeq_run first last h0 hfl hmax ((last - first) + 1) 0
      (by omega)
    rw [h00] at hrun
    have hexh : (AllocateAny (stateAfter first last ((last - first) + 1))).1 =
        none := by
      have hfail : AllocateEphemeralPort
          (stateAfter first last ((last - first) + 1)) =
          (0, stateAfter first last ((last - first) + 1)) := by
        unfold AllocateEphemeralPort
        dsimp only [stateAfter]
        rw [scanPort_all_used _ first last (stateAfter_full first last hfl)
          hfl _ _]
      simp [AllocateAny, hfail]
    refine ⟨?_, ports_nodup first last hfl, ?_⟩
    · rw [hrun]
      rw [List.range_eq_range']
    · rw [hrun]
      exact hexh
  · exact ⟨by decide, by decide⟩

/-- Witness for C4 at the concrete range [49152, 49154]. -/
theorem allocAny_exhaustion_witness :
    (allocAnySeq (freshDemux 49152 49154) (49154 - 49152 + 1)).1 =
      (List.range (49154 - 49152 + 1)).map
        (fun i => some (epOfCall 49152 49154 i)) ∧
    ((List.range (49154 - 49152 + 1)).map (portOfCall 49152 49154)).Nodup ∧
    (AllocateAny (allocAnySeq (freshDemux 49152 49154)
      (49154 - 49152 + 1)).2).1 = none :=
  allocAny_exhaustion.1 49152 49154 (by omega) (by omega) (by omega)

end Demux
